import Mathlib

/-!
Verification of the shotcrete design engine (src/core of the repository).

Shallow embedding conventions:
- Python floats are modelled as exact rationals (ℚ).  The two evaluators can
  produce the IEEE value +infinity, so their numeric output lives in
  WithTop ℚ, where ⊤ models +infinity.
- Python exceptions (ValueError in loads.py) are modelled with
  Except String; a raised exception is an Except.error carrying the message.
- math.tan(radians θ) is a transcendental library call; it is abstracted as
  an explicit function parameter tanDeg : ℚ → ℚ throughout (the value of
  tan(radians θ) at the angle θ in degrees).  Hypotheses about wedge angles
  in (0°, 90°) are expressed through a positivity property of tanDeg.
- Leading underscores of the Python helpers (_panel_load_from_input,
  _evaluate_mode, _min_fos_mode, _max_util_mode) are dropped, since Lean
  identifiers cannot start with an underscore.
- The free-text fields of the data model (age_label, notes, geology_preset,
  ModeResult.detail) carry no computational role (spec section 3) and are
  omitted from the embedding.
-/

namespace Shotcrete

/-- Design convention selector (core/models.py, class DesignMode). -/
inductive DesignMode where
  | FOS
  | LRFD
deriving DecidableEq, Repr

/-- Load-model selector (core/models.py, class LoadModel). -/
inductive LoadModel where
  | PYRAMID_60
  | FLAT_BLOCK
  | SHALE_WEDGE
deriving DecidableEq, Repr

/-- Material properties at the design age (core/models.py, MaterialProps). -/
structure MaterialProps where
  f_c : ℚ
  tau_b : ℚ
  f_r : ℚ
  tau_v : ℚ
  v_rd : ℚ
deriving DecidableEq, Repr

/-- Design factors and durability allowance (core/models.py, CodeFactors). -/
structure CodeFactors where
  mode : DesignMode := DesignMode.FOS
  phi_flexure : ℚ := 3/5
  phi_shear : ℚ := 3/5
  phi_punching : ℚ := 3/5
  gamma_load : ℚ := 3/2
  t_dur_deduction : ℚ := 0
deriving DecidableEq, Repr

/-- All user-selectable design inputs (core/models.py, DesignInput). -/
structure DesignInput where
  s : ℚ
  t : ℚ
  c : ℚ
  gamma_rock : ℚ
  load_model : LoadModel := LoadModel.PYRAMID_60
  theta_deg : ℚ := 60
  h_block : ℚ := 1/2
  materials : MaterialProps := { f_c := 30, tau_b := 1, f_r := 1, tau_v := 1, v_rd := 1 }
  factors : CodeFactors := {}
  a_bond : ℚ := 1/20
deriving DecidableEq, Repr

/-- Effective thickness after durability deduction
(core/models.py, DesignInput.t_effective). -/
def DesignInput.t_effective (inp : DesignInput) : ℚ :=
  let teff := inp.t - max 0 inp.factors.t_dur_deduction
  if teff > 0 then teff else 0

/-- Demand versus capacity for one failure mode (core/models.py, ModeResult).
The fos and utilization fields model Python float-or-None with
Option (WithTop ℚ). -/
structure ModeResult where
  demand : ℚ
  capacity : ℚ
  fos : Option (WithTop ℚ) := none
  utilization : Option (WithTop ℚ) := none
  passes : Option Bool := none
deriving DecidableEq, Repr

/-- Container for all per-mode results (core/models.py, DesignResult).
The Python dicts (modes, derived) preserve insertion order; they are
modelled as association lists in that order. -/
structure DesignResult where
  modes : List (String × ModeResult) := []
  governing_mode : String := ""
  governing_value : WithTop ℚ := (0 : ℚ)
  ok : Bool := false
  derived : List (String × ℚ) := []
deriving DecidableEq, Repr

/-- Convert a block weight W on a square s-by-s panel to a uniform pressure
(core/loads.py, uniform_load_from_block).  Raises for non-positive s. -/
def uniform_load_from_block (W_kN s : ℚ) : Except String ℚ :=
  if s ≤ 0 then .error "Bolt spacing s must be over 0."
  else .ok (W_kN / (s * s))

/-- Pyramidal-wedge block weight and uniform pressure
(core/loads.py, block_weight_pyramid).  tanDeg θ stands for the Python
expression tan(radians(θ)). -/
def block_weight_pyramid (tanDeg : ℚ → ℚ) (s gamma_rock theta_deg : ℚ)
    (surcharge_uniform : ℚ) (include_shotcrete_self_weight : Bool)
    (t_shotcrete gamma_shotcrete : ℚ) : Except String (ℚ × ℚ) :=
  if s ≤ 0 then .error "Bolt spacing s must be over 0."
  else if gamma_rock ≤ 0 then .error "gamma_rock must be over 0."
  else
    let h := 1/2 * s * tanDeg theta_deg
    let V := 1/3 * s ^ 2 * h
    let W_rock := V * gamma_rock
    let W_surcharge := if surcharge_uniform > 0 then surcharge_uniform * s ^ 2 else 0
    let W_sc :=
      if include_shotcrete_self_weight ∧ t_shotcrete > 0 then
        (t_shotcrete * s ^ 2) * gamma_shotcrete
      else 0
    let W_total := W_rock + W_surcharge + W_sc
    match uniform_load_from_block W_total s with
    | .error e => .error e
    | .ok w => .ok (W_total, w)

/-- Flat-block weight and uniform pressure (core/loads.py, block_weight_flat). -/
def block_weight_flat (s gamma_rock h_block : ℚ)
    (surcharge_uniform : ℚ) (include_shotcrete_self_weight : Bool)
    (t_shotcrete gamma_shotcrete : ℚ) : Except String (ℚ × ℚ) :=
  if s ≤ 0 then .error "Bolt spacing s must be over 0."
  else if gamma_rock ≤ 0 then .error "gamma_rock must be over 0."
  else if h_block ≤ 0 then .error "h_block must be over 0."
  else
    let V := s ^ 2 * h_block
    let W_rock := V * gamma_rock
    let W_surcharge := if surcharge_uniform > 0 then surcharge_uniform * s ^ 2 else 0
    let W_sc :=
      if include_shotcrete_self_weight ∧ t_shotcrete > 0 then
        (t_shotcrete * s ^ 2) * gamma_shotcrete
      else 0
    let W_total := W_rock + W_surcharge + W_sc
    match uniform_load_from_block W_total s with
    | .error e => .error e
    | .ok w => .ok (W_total, w)

/-- Shale-wedge model: delegates to the pyramid function
(core/loads.py, block_weight_shale). -/
def block_weight_shale (tanDeg : ℚ → ℚ) (s gamma_rock theta_deg : ℚ)
    (surcharge_uniform : ℚ) (include_shotcrete_self_weight : Bool)
    (t_shotcrete gamma_shotcrete : ℚ) : Except String (ℚ × ℚ) :=
  block_weight_pyramid tanDeg s gamma_rock theta_deg surcharge_uniform
    include_shotcrete_self_weight t_shotcrete gamma_shotcrete

/-- 1 MPa in kN per square metre (core/capacities.py, MPA_TO_KN_M2). -/
def MPA_TO_KN_M2 : ℚ := 1000

/-- Adhesion (bond) capacity in kN (core/capacities.py, capacity_adhesion). -/
def capacity_adhesion (s a_bond tau_b_MPa : ℚ) : ℚ :=
  if s ≤ 0 ∨ a_bond < 0 ∨ tau_b_MPa < 0 then 0
  else
    let A_eff := 4 * s * a_bond
    tau_b_MPa * MPA_TO_KN_M2 * A_eff

/-- Flexural moment demand per metre width
(core/capacities.py, flexure_demands_uniform_load). -/
def flexure_demands_uniform_load (w_kNpm2 s : ℚ) (two_way_factor : ℚ := 3/5) : ℚ :=
  if s ≤ 0 ∨ w_kNpm2 < 0 then 0
  else
    let M_1D := w_kNpm2 * s ^ 2 / 8
    two_way_factor * M_1D

/-- Residual flexural capacity per metre width
(core/capacities.py, capacity_flexure_two_way). -/
def capacity_flexure_two_way (t_eff f_r_MPa : ℚ) : ℚ :=
  if t_eff ≤ 0 ∨ f_r_MPa ≤ 0 then 0
  else
    let Z := t_eff ^ 2 / 6
    f_r_MPa * MPA_TO_KN_M2 * Z

/-- Punching shear demand at one bolt (core/capacities.py, punching_demand). -/
def punching_demand (w_kNpm2 s : ℚ) : ℚ :=
  if s ≤ 0 ∨ w_kNpm2 < 0 then 0
  else w_kNpm2 * s ^ 2 / 4

/-- Punching shear capacity around a bolt plate
(core/capacities.py, capacity_punching). -/
def capacity_punching (t_eff c_plate v_rd_MPa : ℚ) : ℚ :=
  if t_eff ≤ 0 ∨ c_plate < 0 ∨ v_rd_MPa ≤ 0 then 0
  else
    let d := 9/10 * t_eff
    let u := 4 * (c_plate + 1/2 * d)
    v_rd_MPa * MPA_TO_KN_M2 * u * d

/-- In-plane (direct) shear capacity (core/capacities.py, capacity_direct_shear). -/
def capacity_direct_shear (s t_eff tau_v_MPa : ℚ) : ℚ :=
  if s ≤ 0 ∨ t_eff ≤ 0 ∨ tau_v_MPa ≤ 0 then 0
  else
    let A_v := 4 * s * t_eff
    tau_v_MPa * MPA_TO_KN_M2 * A_v

/-- Factor of safety and pass flag (core/capacities.py, evaluate_fos).
⊤ models the Python float +infinity. -/
def evaluate_fos (capacity demand : ℚ) : WithTop ℚ × Bool :=
  if demand ≤ 0 then (⊤, true)
  else if capacity ≤ 0 then ((0 : ℚ), false)
  else
    let fos := capacity / demand
    ((fos : ℚ), decide (fos ≥ 1))

/-- LRFD utilisation and pass flag (core/capacities.py, evaluate_lrfd). -/
def evaluate_lrfd (capacity demand phi gamma : ℚ) : WithTop ℚ × Bool :=
  if capacity ≤ 0 ∨ phi ≤ 0 then (⊤, false)
  else
    let demand' := if demand < 0 then 0 else demand
    let numerator := gamma * demand'
    let denominator := phi * capacity
    if denominator ≤ 0 then (⊤, false)
    else
      let U := numerator / denominator
      ((U : ℚ), decide (U ≤ 1))

/-- Panel load for the selected model (core/design.py, _panel_load_from_input).
The enumeration is closed, so the defensive fallback branch of the source
(which also calls block_weight_pyramid) is unreachable and folds into the
PYRAMID_60 case. -/
def panel_load_from_input (tanDeg : ℚ → ℚ) (inp : DesignInput) :
    Except String (ℚ × ℚ) :=
  match inp.load_model with
  | LoadModel.PYRAMID_60 =>
      block_weight_pyramid tanDeg inp.s inp.gamma_rock inp.theta_deg 0 false inp.t 24
  | LoadModel.FLAT_BLOCK =>
      block_weight_flat inp.s inp.gamma_rock inp.h_block 0 false inp.t 24
  | LoadModel.SHALE_WEDGE =>
      block_weight_shale tanDeg inp.s inp.gamma_rock inp.theta_deg 0 false inp.t 24

/-- Build a ModeResult under the selected convention
(core/design.py, _evaluate_mode). -/
def evaluate_mode (demand capacity : ℚ) (mode : DesignMode) (phi gamma : ℚ) :
    ModeResult :=
  match mode with
  | DesignMode.FOS =>
      let r := evaluate_fos capacity demand
      { demand := demand, capacity := capacity, fos := some r.1,
        utilization := none, passes := some r.2 }
  | DesignMode.LRFD =>
      let r := evaluate_lrfd capacity demand phi gamma
      { demand := demand, capacity := capacity, fos := none,
        utilization := some r.1, passes := some r.2 }

/-- Mode with the smallest FoS (core/design.py, _min_fos_mode).
The Bool component of the accumulator is the Python first flag. -/
def min_fos_mode (modes : List (String × ModeResult)) : String × WithTop ℚ :=
  (modes.foldl
    (fun acc p =>
      match p.2.fos with
      | none => acc
      | some f => if acc.1 ∨ f < acc.2.2 then (false, p.1, f) else acc)
    (true, "", ((0 : ℚ) : WithTop ℚ))).2

/-- Mode with the largest utilisation (core/design.py, _max_util_mode). -/
def max_util_mode (modes : List (String × ModeResult)) : String × WithTop ℚ :=
  (modes.foldl
    (fun acc p =>
      match p.2.utilization with
      | none => acc
      | some u => if acc.1 ∨ u > acc.2.2 then (false, p.1, u) else acc)
    (true, "", ((0 : ℚ) : WithTop ℚ))).2

/-- Body of check_design after the load-model call succeeds with
(W_total_kN, w_uniform): the four mode evaluations, the governing-mode
selection, and the result record (core/design.py, check_design). -/
def design_checks (inp : DesignInput) (W_total_kN w_uniform : ℚ) : DesignResult :=
  let mat := inp.materials
  let f := inp.factors
  let teff := inp.t_effective
  let C_adh_kN := capacity_adhesion inp.s inp.a_bond mat.tau_b
  let res_adh := evaluate_mode W_total_kN C_adh_kN f.mode f.phi_shear f.gamma_load
  let M_dem := flexure_demands_uniform_load w_uniform inp.s (3/5)
  let M_cap := capacity_flexure_two_way teff mat.f_r
  let res_flex := evaluate_mode M_dem M_cap f.mode f.phi_flexure f.gamma_load
  let V_dem := punching_demand w_uniform inp.s
  let V_cap := capacity_punching teff inp.c mat.v_rd
  let res_punch := evaluate_mode V_dem V_cap f.mode f.phi_punching f.gamma_load
  let Vrd_shear := capacity_direct_shear inp.s teff mat.tau_v
  let res_shear := evaluate_mode W_total_kN Vrd_shear f.mode f.phi_shear f.gamma_load
  let modes : List (String × ModeResult) :=
    [("Adhesion", res_adh), ("Flexure", res_flex),
     ("Punching", res_punch), ("DirectShear", res_shear)]
  let gov :=
    match f.mode with
    | DesignMode.FOS =>
        let g := min_fos_mode modes
        (g.1, g.2, decide (g.2 ≥ 1))
    | DesignMode.LRFD =>
        let g := max_util_mode modes
        (g.1, g.2, decide (g.2 ≤ 1))
  { modes := modes
    governing_mode := gov.1
    governing_value := gov.2.1
    ok := gov.2.2
    derived := [("t_eff", teff), ("W_total_kN", W_total_kN), ("w_kNpm2", w_uniform)] }

/-- Master entry point (core/design.py, check_design): computes the panel
load, then runs the four mode checks; a load-model exception propagates. -/
def check_design (tanDeg : ℚ → ℚ) (inp : DesignInput) : Except String DesignResult :=
  match panel_load_from_input tanDeg inp with
  | .error e => .error e
  | .ok (W_total_kN, w_uniform) => .ok (design_checks inp W_total_kN w_uniform)

/-! ## Helper lemmas: the running strict-comparison fold computes a first-wins
minimum (respectively maximum). -/

lemma ite_lt_eq_min {α : Type} [LinearOrder α] (a b : α) :
    (if b < a then b else a) = min a b := by
  rcases lt_or_le b a with h | h
  · rw [if_pos h, min_eq_right h.le]
  · rw [if_neg (not_lt.2 h), min_eq_left h]

lemma ite_gt_eq_max {α : Type} [LinearOrder α] (a b : α) :
    (if b > a then b else a) = max a b := by
  rcases lt_or_le a b with h | h
  · rw [if_pos h, max_eq_right h.le]
  · rw [if_neg (not_lt.2 h), max_eq_left h]

lemma sel_min_name {α β : Type} [LinearOrder α] (n1 n2 n3 n4 : β) (v1 v2 v3 v4 : α) :
    (if v4 < min (min v1 v2) v3 then n4
     else if v3 < min v1 v2 then n3
     else if v2 < v1 then n2 else n1) =
    (if v1 ≤ v2 ∧ v1 ≤ v3 ∧ v1 ≤ v4 then n1
     else if v2 ≤ v3 ∧ v2 ≤ v4 then n2
     else if v3 ≤ v4 then n3 else n4) := by
  rcases lt_or_le v4 (min (min v1 v2) v3) with hc4 | hc4
  · have h41 : v4 < v1 := lt_of_lt_of_le hc4 ((min_le_left _ _).trans (min_le_left _ _))
    have h42 : v4 < v2 := lt_of_lt_of_le hc4 ((min_le_left _ _).trans (min_le_right _ _))
    have h43 : v4 < v3 := lt_of_lt_of_le hc4 (min_le_right _ _)
    rw [if_pos hc4, if_neg (fun h => absurd h.2.2 (not_le.2 h41)),
        if_neg (fun h => absurd h.2 (not_le.2 h42)), if_neg (not_le.2 h43)]
  · rcases lt_or_le v3 (min v1 v2) with hc3 | hc3
    · have h31 : v3 < v1 := lt_of_lt_of_le hc3 (min_le_left _ _)
      have h32 : v3 < v2 := lt_of_lt_of_le hc3 (min_le_right _ _)
      have h34 : v3 ≤ v4 := by rw [min_eq_right hc3.le] at hc4; exact hc4
      rw [if_neg (not_lt.2 hc4), if_pos hc3,
          if_neg (fun h => absurd h.2.1 (not_le.2 h31)),
          if_neg (fun h => absurd h.1 (not_le.2 h32)), if_pos h34]
    · rcases lt_or_le v2 v1 with hc2 | hc2
      · have h23 : v2 ≤ v3 := by rw [min_eq_right hc2.le] at hc3; exact hc3
        have h24 : v2 ≤ v4 := by
          rw [min_eq_right hc2.le, min_eq_left h23] at hc4; exact hc4
        rw [if_neg (not_lt.2 hc4), if_neg (not_lt.2 hc3), if_pos hc2,
            if_neg (fun h => absurd h.1 (not_le.2 hc2)), if_pos ⟨h23, h24⟩]
      · have h13 : v1 ≤ v3 := by rw [min_eq_left hc2] at hc3; exact hc3
        have h14 : v1 ≤ v4 := by
          rw [min_eq_left hc2, min_eq_left h13] at hc4; exact hc4
        rw [if_neg (not_lt.2 hc4), if_neg (not_lt.2 hc3), if_neg (not_lt.2 hc2),
            if_pos ⟨hc2, h13, h14⟩]

lemma sel_max_name {α β : Type} [LinearOrder α] (n1 n2 n3 n4 : β) (v1 v2 v3 v4 : α) :
    (if max (max v1 v2) v3 < v4 then n4
     else if max v1 v2 < v3 then n3
     else if v1 < v2 then n2 else n1) =
    (if v2 ≤ v1 ∧ v3 ≤ v1 ∧ v4 ≤ v1 then n1
     else if v3 ≤ v2 ∧ v4 ≤ v2 then n2
     else if v4 ≤ v3 then n3 else n4) := by
  rcases lt_or_le (max (max v1 v2) v3) v4 with hc4 | hc4
  · have h41 : v1 < v4 := lt_of_le_of_lt ((le_max_left _ _).trans (le_max_left _ _)) hc4
    have h42 : v2 < v4 := lt_of_le_of_lt ((le_max_right _ _).trans (le_max_left _ _)) hc4
    have h43 : v3 < v4 := lt_of_le_of_lt (le_max_right _ _) hc4
    rw [if_pos hc4, if_neg (fun h => absurd h.2.2 (not_le.2 h41)),
        if_neg (fun h => absurd h.2 (not_le.2 h42)), if_neg (not_le.2 h43)]
  · rcases lt_or_le (max v1 v2) v3 with hc3 | hc3
    · have h31 : v1 < v3 := lt_of_le_of_lt (le_max_left _ _) hc3
      have h32 : v2 < v3 := lt_of_le_of_lt (le_max_right _ _) hc3
      have h34 : v4 ≤ v3 := by rw [max_eq_right hc3.le] at hc4; exact hc4
      rw [if_neg (not_lt.2 hc4), if_pos hc3,
          if_neg (fun h => absurd h.2.1 (not_le.2 h31)),
          if_neg (fun h => absurd h.1 (not_le.2 h32)), if_pos h34]
    · rcases lt_or_le v1 v2 with hc2 | hc2
      · have h23 : v3 ≤ v2 := by rw [max_eq_right hc2.le] at hc3; exact hc3
        have h24 : v4 ≤ v2 := by
          rw [max_eq_right hc2.le, max_eq_left h23] at hc4; exact hc4
        rw [if_neg (not_lt.2 hc4), if_neg (not_lt.2 hc3), if_pos hc2,
            if_neg (fun h => absurd h.1 (not_le.2 hc2)), if_pos ⟨h23, h24⟩]
      · have h13 : v3 ≤ v1 := by rw [max_eq_left hc2] at hc3; exact hc3
        have h14 : v4 ≤ v1 := by
          rw [max_eq_left hc2, max_eq_left h13] at hc4; exact hc4
        rw [if_neg (not_lt.2 hc4), if_neg (not_lt.2 hc3), if_neg (not_lt.2 hc2),
            if_pos ⟨hc2, h13, h14⟩]

/-- On a four-entry mode list whose FoS fields are all populated,
min_fos_mode returns the minimum FoS together with the first mode
attaining it. -/
lemma min_fos_mode_quad (n1 n2 n3 n4 : String) (m1 m2 m3 m4 : ModeResult)
    (v1 v2 v3 v4 : WithTop ℚ)
    (h1 : m1.fos = some v1) (h2 : m2.fos = some v2)
    (h3 : m3.fos = some v3) (h4 : m4.fos = some v4) :
    min_fos_mode [(n1, m1), (n2, m2), (n3, m3), (n4, m4)] =
      (if v1 ≤ v2 ∧ v1 ≤ v3 ∧ v1 ≤ v4 then n1
       else if v2 ≤ v3 ∧ v2 ≤ v4 then n2
       else if v3 ≤ v4 then n3 else n4,
       min v1 (min v2 (min v3 v4))) := by
  simp only [min_fos_mode, List.foldl, h1, h2, h3, h4, true_or, if_true,
    apply_ite Prod.fst, apply_ite Prod.snd, ite_self, Bool.false_eq_true, false_or]
  rw [ite_lt_eq_min v1 v2, ite_lt_eq_min (min v1 v2) v3, Prod.ext_iff]
  constructor
  · simp only [apply_ite Prod.fst]
    exact sel_min_name n1 n2 n3 n4 v1 v2 v3 v4
  · simp only [apply_ite Prod.snd]
    rw [ite_lt_eq_min v1 v2, ite_lt_eq_min (min v1 v2) v3,
      ite_lt_eq_min (min (min v1 v2) v3) v4, min_assoc, min_assoc]

/-- On a four-entry mode list whose utilisation fields are all populated,
max_util_mode returns the maximum utilisation together with the first
mode attaining it. -/
lemma max_util_mode_quad (n1 n2 n3 n4 : String) (m1 m2 m3 m4 : ModeResult)
    (v1 v2 v3 v4 : WithTop ℚ)
    (h1 : m1.utilization = some v1) (h2 : m2.utilization = some v2)
    (h3 : m3.utilization = some v3) (h4 : m4.utilization = some v4) :
    max_util_mode [(n1, m1), (n2, m2), (n3, m3), (n4, m4)] =
      (if v2 ≤ v1 ∧ v3 ≤ v1 ∧ v4 ≤ v1 then n1
       else if v3 ≤ v2 ∧ v4 ≤ v2 then n2
       else if v4 ≤ v3 then n3 else n4,
       max v1 (max v2 (max v3 v4))) := by
  simp only [max_util_mode, List.foldl, h1, h2, h3, h4, true_or, if_true,
    apply_ite Prod.fst, apply_ite Prod.snd, ite_self, Bool.false_eq_true, false_or]
  rw [ite_gt_eq_max v1 v2, ite_gt_eq_max (max v1 v2) v3, Prod.ext_iff]
  constructor
  · simp only [apply_ite Prod.fst]
    exact sel_max_name n1 n2 n3 n4 v1 v2 v3 v4
  · simp only [apply_ite Prod.snd]
    rw [ite_gt_eq_max v1 v2, ite_gt_eq_max (max v1 v2) v3,
      ite_gt_eq_max (max (max v1 v2) v3) v4, max_assoc, max_assoc]

/-! ## Helper lemmas about the two evaluators. -/

lemma evaluate_fos_demand_pos (capacity demand : ℚ) (hd : 0 < demand) :
    evaluate_fos capacity demand =
      if capacity ≤ 0 then (((0 : ℚ) : WithTop ℚ), false)
      else ((capacity / demand : ℚ), decide (capacity / demand ≥ 1)) := by
  rw [evaluate_fos, if_neg (not_le.2 hd)]

/-- In every case the FoS pass flag agrees with the comparison of the FoS
value against 1 (with ⊤ counting as at least 1). -/
lemma evaluate_fos_pass_iff (capacity demand : ℚ) :
    (evaluate_fos capacity demand).2 = true ↔ 1 ≤ (evaluate_fos capacity demand).1 := by
  rw [evaluate_fos]
  split_ifs <;>
    norm_num [top_le_iff, ← WithTop.coe_one, ← WithTop.coe_zero, WithTop.coe_le_coe]

/-- In every case the LRFD pass flag agrees with the comparison of the
utilisation value against 1 (with ⊤ counting as more than 1). -/
lemma evaluate_lrfd_pass_iff (capacity demand phi gamma : ℚ) :
    (evaluate_lrfd capacity demand phi gamma).2 = true ↔
      (evaluate_lrfd capacity demand phi gamma).1 ≤ 1 := by
  rw [evaluate_lrfd]
  by_cases h1 : capacity ≤ 0 ∨ phi ≤ 0
  · rw [if_pos h1]
    norm_num [top_le_iff]
  · rw [if_neg h1]
    simp only []
    by_cases h2 : phi * capacity ≤ 0
    · simp only [if_pos h2]
      norm_num [top_le_iff]
    · simp only [if_neg h2]
      norm_num [← WithTop.coe_one, WithTop.coe_le_coe]

/-- The FoS value is antitone when the capacity-to-demand ratio shrinks:
with positive demands, non-negative capacities, and the cross-product
inequality, the second FoS is at most the first. -/
lemma evaluate_fos_val_mono (c1 d1 c2 d2 : ℚ)
    (hd1 : 0 < d1) (hd2 : 0 < d2) (hc1 : 0 ≤ c1)
    (hprod : c2 * d1 ≤ c1 * d2) :
    (evaluate_fos c2 d2).1 ≤ (evaluate_fos c1 d1).1 := by
  rw [evaluate_fos_demand_pos _ _ hd1, evaluate_fos_demand_pos _ _ hd2]
  rcases le_or_lt c2 0 with h2 | h2
  · rw [if_pos h2]
    split_ifs with h1
    · exact le_refl _
    · exact WithTop.coe_le_coe.2 (div_nonneg hc1 hd1.le)
  · have h1 : 0 < c1 := by
      rcases lt_or_le 0 c1 with h | h
      · exact h
      · exfalso
        have : c1 * d2 ≤ 0 := mul_nonpos_of_nonpos_of_nonneg h hd2.le
        nlinarith
    rw [if_neg (not_le.2 h2), if_neg (not_le.2 h1)]
    exact WithTop.coe_le_coe.2 ((div_le_div_iff₀ hd2 hd1).2 hprod)

/-! ## Helper lemmas about the load models. -/

lemma uniform_load_from_block_ok (W s : ℚ) (hs : 0 < s) :
    uniform_load_from_block W s = .ok (W / (s * s)) := by
  rw [uniform_load_from_block, if_neg (not_le.2 hs)]

/-- Value of the pyramid model as wired by the orchestrator (zero surcharge,
self-weight excluded). -/
lemma block_weight_pyramid_ok (tanDeg : ℚ → ℚ) (s gamma_rock theta_deg t : ℚ)
    (hs : 0 < s) (hg : 0 < gamma_rock) :
    block_weight_pyramid tanDeg s gamma_rock theta_deg 0 false t 24 =
      .ok (1/3 * s ^ 2 * (1/2 * s * tanDeg theta_deg) * gamma_rock,
           1/3 * s ^ 2 * (1/2 * s * tanDeg theta_deg) * gamma_rock / (s * s)) := by
  rw [block_weight_pyramid, if_neg (not_le.2 hs), if_neg (not_le.2 hg)]
  simp only [gt_iff_lt, lt_self_iff_false, if_false, Bool.false_eq_true, false_and,
    add_zero, uniform_load_from_block_ok _ _ hs]

/-- Value of the flat-block model as wired by the orchestrator. -/
lemma block_weight_flat_ok (s gamma_rock h_block t : ℚ)
    (hs : 0 < s) (hg : 0 < gamma_rock) (hh : 0 < h_block) :
    block_weight_flat s gamma_rock h_block 0 false t 24 =
      .ok (s ^ 2 * h_block * gamma_rock,
           s ^ 2 * h_block * gamma_rock / (s * s)) := by
  rw [block_weight_flat, if_neg (not_le.2 hs), if_neg (not_le.2 hg), if_neg (not_le.2 hh)]
  simp only [gt_iff_lt, lt_self_iff_false, if_false, Bool.false_eq_true, false_and,
    add_zero, uniform_load_from_block_ok _ _ hs]

/-- The pyramid model raises exactly when s ≤ 0 or gamma_rock ≤ 0. -/
lemma block_weight_pyramid_error_iff (tanDeg : ℚ → ℚ)
    (s gamma_rock theta_deg surcharge : ℚ) (inc : Bool) (ts gs : ℚ) :
    (∃ e, block_weight_pyramid tanDeg s gamma_rock theta_deg surcharge inc ts gs =
        .error e) ↔ s ≤ 0 ∨ gamma_rock ≤ 0 := by
  rw [block_weight_pyramid]
  by_cases hs : s ≤ 0
  · simp [hs]
  rw [if_neg hs]
  by_cases hg : gamma_rock ≤ 0
  · simp [hs, hg]
  rw [if_neg hg]
  simp only []
  rw [uniform_load_from_block_ok _ _ (not_le.1 hs)]
  simp [hs, hg]

/-- The flat-block model raises exactly when s ≤ 0, gamma_rock ≤ 0 or
h_block ≤ 0. -/
lemma block_weight_flat_error_iff
    (s gamma_rock h_block surcharge : ℚ) (inc : Bool) (ts gs : ℚ) :
    (∃ e, block_weight_flat s gamma_rock h_block surcharge inc ts gs = .error e) ↔
      s ≤ 0 ∨ gamma_rock ≤ 0 ∨ h_block ≤ 0 := by
  rw [block_weight_flat]
  by_cases hs : s ≤ 0
  · simp [hs]
  rw [if_neg hs]
  by_cases hg : gamma_rock ≤ 0
  · simp [hs, hg]
  rw [if_neg hg]
  by_cases hh : h_block ≤ 0
  · simp [hs, hg, hh]
  rw [if_neg hh]
  simp only []
  rw [uniform_load_from_block_ok _ _ (not_le.1 hs)]
  simp [hs, hg, hh]

/-- A successful pyramid computation certifies its preconditions. -/
lemma block_weight_pyramid_ok_inv (tanDeg : ℚ → ℚ)
    (s gamma_rock theta_deg surcharge : ℚ) (inc : Bool) (ts gs : ℚ) (p : ℚ × ℚ)
    (hp : block_weight_pyramid tanDeg s gamma_rock theta_deg surcharge inc ts gs = .ok p) :
    0 < s ∧ 0 < gamma_rock := by
  rw [block_weight_pyramid] at hp
  by_cases hs : s ≤ 0
  · rw [if_pos hs] at hp; exact absurd hp (by simp)
  rw [if_neg hs] at hp
  by_cases hg : gamma_rock ≤ 0
  · rw [if_pos hg] at hp; exact absurd hp (by simp)
  exact ⟨not_le.1 hs, not_le.1 hg⟩

/-- A successful flat-block computation certifies its preconditions. -/
lemma block_weight_flat_ok_inv
    (s gamma_rock h_block surcharge : ℚ) (inc : Bool) (ts gs : ℚ) (p : ℚ × ℚ)
    (hp : block_weight_flat s gamma_rock h_block surcharge inc ts gs = .ok p) :
    0 < s ∧ 0 < gamma_rock ∧ 0 < h_block := by
  rw [block_weight_flat] at hp
  by_cases hs : s ≤ 0
  · rw [if_pos hs] at hp; exact absurd hp (by simp)
  rw [if_neg hs] at hp
  by_cases hg : gamma_rock ≤ 0
  · rw [if_pos hg] at hp; exact absurd hp (by simp)
  rw [if_neg hg] at hp
  by_cases hh : h_block ≤ 0
  · rw [if_pos hh] at hp; exact absurd hp (by simp)
  exact ⟨not_le.1 hs, not_le.1 hg, not_le.1 hh⟩

/-! ## Sign lemmas for the capacity/demand library. -/

lemma capacity_adhesion_nonneg (s a_bond tau_b : ℚ) :
    0 ≤ capacity_adhesion s a_bond tau_b := by
  rw [capacity_adhesion]
  split_ifs with h
  · exact le_refl 0
  · push_neg at h
    exact mul_nonneg (mul_nonneg h.2.2 (by norm_num [MPA_TO_KN_M2]))
      (mul_nonneg (mul_nonneg (by norm_num) h.1.le) h.2.1)

lemma flexure_demands_nonneg (w s two_way_factor : ℚ) (hf : 0 ≤ two_way_factor) :
    0 ≤ flexure_demands_uniform_load w s two_way_factor := by
  rw [flexure_demands_uniform_load]
  split_ifs with h
  · exact le_refl 0
  · push_neg at h
    exact mul_nonneg hf
      (div_nonneg (mul_nonneg h.2 (sq_nonneg s)) (by norm_num))

lemma capacity_flexure_two_way_nonneg (t_eff f_r : ℚ) :
    0 ≤ capacity_flexure_two_way t_eff f_r := by
  rw [capacity_flexure_two_way]
  split_ifs with h
  · exact le_refl 0
  · push_neg at h
    exact mul_nonneg (mul_nonneg h.2.le (by norm_num [MPA_TO_KN_M2])) (by positivity)

lemma punching_demand_nonneg (w s : ℚ) : 0 ≤ punching_demand w s := by
  rw [punching_demand]
  split_ifs with h
  · exact le_refl 0
  · push_neg at h
    exact div_nonneg (mul_nonneg h.2 (sq_nonneg s)) (by norm_num)

lemma capacity_punching_nonneg (t_eff c_plate v_rd : ℚ) :
    0 ≤ capacity_punching t_eff c_plate v_rd := by
  rw [capacity_punching]
  split_ifs with h
  · exact le_refl 0
  · push_neg at h
    have ht : 0 ≤ t_eff := h.1.le
    have hd : 0 ≤ 9/10 * t_eff := by nlinarith
    have hu : 0 ≤ 4 * (c_plate + 1/2 * (9/10 * t_eff)) := by nlinarith [h.2.1]
    exact mul_nonneg (mul_nonneg (mul_nonneg h.2.2.le (by norm_num [MPA_TO_KN_M2])) hu) hd

lemma capacity_direct_shear_nonneg (s t_eff tau_v : ℚ) :
    0 ≤ capacity_direct_shear s t_eff tau_v := by
  rw [capacity_direct_shear]
  split_ifs with h
  · exact le_refl 0
  · push_neg at h
    exact mul_nonneg (mul_nonneg h.2.2.le (by norm_num [MPA_TO_KN_M2]))
      (mul_nonneg (mul_nonneg (by norm_num) h.1.le) h.2.1.le)

/-! ## Demand values along the orchestrator path (w = W / s²). -/

lemma flexure_demand_of_w (W s : ℚ) (hs : 0 < s) (hW : 0 ≤ W) :
    flexure_demands_uniform_load (W / (s * s)) s (3/5) = 3 * W / 40 := by
  rw [flexure_demands_uniform_load,
    if_neg (by push_neg; exact ⟨hs, div_nonneg hW (by positivity)⟩)]
  field_simp
  ring

lemma punching_demand_of_w (W s : ℚ) (hs : 0 < s) (hW : 0 ≤ W) :
    punching_demand (W / (s * s)) s = W / 4 := by
  rw [punching_demand,
    if_neg (by push_neg; exact ⟨hs, div_nonneg hW (by positivity)⟩)]
  field_simp
  ring

/-! ## Helper lemmas about evaluate_mode and design_checks. -/

lemma evaluate_mode_fos_fos (d c phi gamma : ℚ) :
    (evaluate_mode d c DesignMode.FOS phi gamma).fos = some (evaluate_fos c d).1 := rfl

lemma evaluate_mode_lrfd_util (d c phi gamma : ℚ) :
    (evaluate_mode d c DesignMode.LRFD phi gamma).utilization =
      some (evaluate_lrfd c d phi gamma).1 := rfl

lemma evaluate_mode_demand (d c : ℚ) (m : DesignMode) (phi gamma : ℚ) :
    (evaluate_mode d c m phi gamma).demand = d := by
  cases m <;> rfl

lemma evaluate_mode_capacity (d c : ℚ) (m : DesignMode) (phi gamma : ℚ) :
    (evaluate_mode d c m phi gamma).capacity = c := by
  cases m <;> rfl

/-- The four mode entries of a design_checks result, in dictionary
insertion order. -/
lemma design_checks_modes (inp : DesignInput) (W w : ℚ) :
    (design_checks inp W w).modes =
      [("Adhesion", evaluate_mode W
          (capacity_adhesion inp.s inp.a_bond inp.materials.tau_b)
          inp.factors.mode inp.factors.phi_shear inp.factors.gamma_load),
       ("Flexure", evaluate_mode (flexure_demands_uniform_load w inp.s (3/5))
          (capacity_flexure_two_way inp.t_effective inp.materials.f_r)
          inp.factors.mode inp.factors.phi_flexure inp.factors.gamma_load),
       ("Punching", evaluate_mode (punching_demand w inp.s)
          (capacity_punching inp.t_effective inp.c inp.materials.v_rd)
          inp.factors.mode inp.factors.phi_punching inp.factors.gamma_load),
       ("DirectShear", evaluate_mode W
          (capacity_direct_shear inp.s inp.t_effective inp.materials.tau_v)
          inp.factors.mode inp.factors.phi_shear inp.factors.gamma_load)] := rfl

lemma design_checks_gov_fos (inp : DesignInput) (W w : ℚ)
    (hm : inp.factors.mode = DesignMode.FOS) :
    (design_checks inp W w).governing_mode =
        (min_fos_mode (design_checks inp W w).modes).1 ∧
      (design_checks inp W w).governing_value =
        (min_fos_mode (design_checks inp W w).modes).2 ∧
      (design_checks inp W w).ok =
        decide ((min_fos_mode (design_checks inp W w).modes).2 ≥ 1) := by
  refine ⟨?_, ?_, ?_⟩ <;> simp only [design_checks, design_checks_modes, hm]

lemma design_checks_gov_lrfd (inp : DesignInput) (W w : ℚ)
    (hm : inp.factors.mode = DesignMode.LRFD) :
    (design_checks inp W w).governing_mode =
        (max_util_mode (design_checks inp W w).modes).1 ∧
      (design_checks inp W w).governing_value =
        (max_util_mode (design_checks inp W w).modes).2 ∧
      (design_checks inp W w).ok =
        decide ((max_util_mode (design_checks inp W w).modes).2 ≤ 1) := by
  refine ⟨?_, ?_, ?_⟩ <;> simp only [design_checks, design_checks_modes, hm]

/-- Unfolding the orchestrator dispatch for each load-model variant. -/
lemma panel_load_eq_pyramid (tanDeg : ℚ → ℚ) (inp : DesignInput)
    (hLM : inp.load_model = LoadModel.PYRAMID_60) :
    panel_load_from_input tanDeg inp =
      block_weight_pyramid tanDeg inp.s inp.gamma_rock inp.theta_deg 0 false inp.t 24 := by
  rw [panel_load_from_input, hLM]

lemma panel_load_eq_flat (tanDeg : ℚ → ℚ) (inp : DesignInput)
    (hLM : inp.load_model = LoadModel.FLAT_BLOCK) :
    panel_load_from_input tanDeg inp =
      block_weight_flat inp.s inp.gamma_rock inp.h_block 0 false inp.t 24 := by
  rw [panel_load_from_input, hLM]

lemma panel_load_eq_shale (tanDeg : ℚ → ℚ) (inp : DesignInput)
    (hLM : inp.load_model = LoadModel.SHALE_WEDGE) :
    panel_load_from_input tanDeg inp =
      block_weight_pyramid tanDeg inp.s inp.gamma_rock inp.theta_deg 0 false inp.t 24 := by
  rw [panel_load_from_input, hLM]; rfl

/-- A successful check_design run decomposes into a successful panel-load
computation followed by the pure mode checks. -/
lemma check_design_ok_elim (tanDeg : ℚ → ℚ) (inp : DesignInput) (res : DesignResult)
    (h : check_design tanDeg inp = .ok res) :
    ∃ W w, panel_load_from_input tanDeg inp = .ok (W, w) ∧
      res = design_checks inp W w := by
  rw [check_design] at h
  cases hpl : panel_load_from_input tanDeg inp with
  | error e => rw [hpl] at h; exact absurd h (by simp)
  | ok p =>
    obtain ⟨W, w⟩ := p
    rw [hpl] at h
    rw [Except.ok.injEq] at h
    exact ⟨W, w, rfl, h.symm⟩

/-! ## Zero-value lemmas for non-physical library inputs. -/

lemma capacity_adhesion_zero (s a_bond tau_b : ℚ) (h : s ≤ 0 ∨ tau_b ≤ 0) :
    capacity_adhesion s a_bond tau_b = 0 := by
  rw [capacity_adhesion]
  rcases h with h | h
  · rw [if_pos (Or.inl h)]
  · rcases lt_or_eq_of_le h with h' | h'
    · rw [if_pos (Or.inr (Or.inr h'))]
    · subst h'
      split_ifs
      · rfl
      · rw [zero_mul, zero_mul]

lemma flexure_demands_zero (w s two_way_factor : ℚ) (h : s ≤ 0 ∨ w < 0) :
    flexure_demands_uniform_load w s two_way_factor = 0 := by
  rw [flexure_demands_uniform_load, if_pos h]

lemma capacity_flexure_two_way_zero (t_eff f_r : ℚ) (h : t_eff ≤ 0 ∨ f_r ≤ 0) :
    capacity_flexure_two_way t_eff f_r = 0 := by
  rw [capacity_flexure_two_way, if_pos h]

lemma punching_demand_zero (w s : ℚ) (h : s ≤ 0 ∨ w < 0) :
    punching_demand w s = 0 := by
  rw [punching_demand, if_pos h]

lemma capacity_punching_zero (t_eff c_plate v_rd : ℚ) (h : t_eff ≤ 0 ∨ v_rd ≤ 0) :
    capacity_punching t_eff c_plate v_rd = 0 := by
  rw [capacity_punching]
  rcases h with h | h
  · rw [if_pos (Or.inl h)]
  · rw [if_pos (Or.inr (Or.inr h))]

lemma capacity_direct_shear_zero (s t_eff tau_v : ℚ) (h : s ≤ 0 ∨ t_eff ≤ 0 ∨ tau_v ≤ 0) :
    capacity_direct_shear s t_eff tau_v = 0 := by
  rw [capacity_direct_shear, if_pos h]

/-- The effective thickness is the outer clamp of the nominal thickness
minus the inner-clamped deduction. -/
lemma t_effective_eq_max (inp : DesignInput) :
    inp.t_effective = max 0 (inp.t - max 0 inp.factors.t_dur_deduction) := by
  rw [DesignInput.t_effective]
  rcases lt_or_le 0 (inp.t - max 0 inp.factors.t_dur_deduction) with h | h
  · rw [if_pos h, max_eq_right h.le]
  · rw [if_neg (not_lt.2 h), max_eq_left h]

/-! ## Cross-product inequalities used for the spacing monotonicity claim. -/

lemma capacity_adhesion_cross (s1 s2 a_bond tau_b W1 W2 : ℚ)
    (hs1 : 0 < s1) (hs2 : 0 < s2)
    (hWs : s2 * W1 ≤ s1 * W2) :
    capacity_adhesion s2 a_bond tau_b * W1 ≤ capacity_adhesion s1 a_bond tau_b * W2 := by
  rw [capacity_adhesion, capacity_adhesion]
  by_cases hg : a_bond < 0 ∨ tau_b < 0
  · rw [if_pos (Or.inr hg), if_pos (Or.inr hg)]
    simp
  · push_neg at hg
    rw [if_neg (by push_neg; exact ⟨hs2, hg.1, hg.2⟩),
        if_neg (by push_neg; exact ⟨hs1, hg.1, hg.2⟩)]
    simp only [MPA_TO_KN_M2]
    have h0 : 0 ≤ tau_b * 1000 * 4 * a_bond := by
      exact mul_nonneg (mul_nonneg (mul_nonneg hg.2 (by norm_num)) (by norm_num)) hg.1
    nlinarith [mul_le_mul_of_nonneg_left hWs h0]

lemma capacity_direct_shear_cross (s1 s2 t_eff tau_v W1 W2 : ℚ)
    (hs1 : 0 < s1) (hs2 : 0 < s2)
    (hWs : s2 * W1 ≤ s1 * W2) :
    capacity_direct_shear s2 t_eff tau_v * W1 ≤
      capacity_direct_shear s1 t_eff tau_v * W2 := by
  rw [capacity_direct_shear, capacity_direct_shear]
  by_cases hg : t_eff ≤ 0 ∨ tau_v ≤ 0
  · rw [if_pos (Or.inr hg), if_pos (Or.inr hg)]
    simp
  · push_neg at hg
    rw [if_neg (by push_neg; exact ⟨hs2, hg.1, hg.2⟩),
        if_neg (by push_neg; exact ⟨hs1, hg.1, hg.2⟩)]
    simp only [MPA_TO_KN_M2]
    have h0 : 0 ≤ tau_v * 1000 * 4 * t_eff := by
      exact mul_nonneg (mul_nonneg (mul_nonneg hg.2.le (by norm_num)) (by norm_num)) hg.1.le
    nlinarith [mul_le_mul_of_nonneg_left hWs h0]

/-! ## Concrete inputs used by witnesses and counterexamples. -/

/-- The constant-one stand-in for tan(radians θ): the exact value of the
tangent at 45 degrees, positive on all of (0°, 90°). -/
def tanOne : ℚ → ℚ := fun _ => 1

/-- A valid input whose durability deduction is negative. -/
def inpC5 : DesignInput :=
  { s := 1, t := 1, c := 0, gamma_rock := 20,
    factors := { t_dur_deduction := -1 } }

/-- A valid input whose durability deduction exceeds the nominal thickness. -/
def inpC8 : DesignInput :=
  { s := 1, t := 2/25, c := 0, gamma_rock := 20,
    factors := { t_dur_deduction := 1/5 } }

/-- A valid input with zero durability deduction. -/
def inpC8w : DesignInput := { s := 1, t := 1/10, c := 0, gamma_rock := 20 }

/-! ## Claims. -/

/-- C2: the Factor-of-Safety evaluator returns (+infinity, pass) with
pass = true whenever demand ≤ 0 regardless of capacity; returns
(0, pass = false) when capacity ≤ 0 and demand > 0; and otherwise returns
(capacity/demand, pass) with pass = (capacity/demand ≥ 1). -/
theorem claim_C2_evaluate_fos_cases (capacity demand : ℚ) :
    (demand ≤ 0 → evaluate_fos capacity demand = (⊤, true)) ∧
    (capacity ≤ 0 → 0 < demand →
      evaluate_fos capacity demand = (((0 : ℚ) : WithTop ℚ), false)) ∧
    (0 < capacity → 0 < demand →
      evaluate_fos capacity demand =
        (((capacity / demand : ℚ) : WithTop ℚ), decide (capacity / demand ≥ 1))) := by
  refine ⟨?_, ?_, ?_⟩
  · intro h
    rw [evaluate_fos, if_pos h]
  · intro hc hd
    rw [evaluate_fos, if_neg (not_le.2 hd), if_pos hc]
  · intro hc hd
    rw [evaluate_fos, if_neg (not_le.2 hd), if_neg (not_le.2 hc)]

/-- Witness for C2 at capacity = 2, demand = 1. -/
theorem claim_C2_witness :
    (0:ℚ) < 2 ∧ (0:ℚ) < 1 ∧
      evaluate_fos 2 1 = ((((2:ℚ)/1 : ℚ) : WithTop ℚ), decide ((2:ℚ)/1 ≥ 1)) :=
  ⟨by norm_num, by norm_num,
   (claim_C2_evaluate_fos_cases 2 1).2.2 (by norm_num) (by norm_num)⟩

/-- C3: the factored evaluator returns (+infinity, pass = false) when
φ ≤ 0 or capacity ≤ 0 or the denominator φ·capacity is non-positive;
otherwise it clamps negative demand to zero and returns
utilisation = γ·demand/(φ·capacity) with pass = (utilisation ≤ 1). -/
theorem claim_C3_evaluate_lrfd_cases (capacity demand phi gamma : ℚ) :
    (phi ≤ 0 ∨ capacity ≤ 0 ∨ phi * capacity ≤ 0 →
      evaluate_lrfd capacity demand phi gamma = (⊤, false)) ∧
    (0 < phi → 0 < capacity →
      evaluate_lrfd capacity demand phi gamma =
        (((gamma * (if demand < 0 then 0 else demand) / (phi * capacity) : ℚ) : WithTop ℚ),
         decide (gamma * (if demand < 0 then 0 else demand) / (phi * capacity) ≤ 1))) := by
  constructor
  · intro h
    rw [evaluate_lrfd]
    by_cases hg : capacity ≤ 0 ∨ phi ≤ 0
    · rw [if_pos hg]
    · push_neg at hg
      rcases h with h | h | h
      · exact absurd h (not_le.2 hg.2)
      · exact absurd h (not_le.2 hg.1)
      · exact absurd h (not_le.2 (mul_pos hg.2 hg.1))
  · intro hp hc
    rw [evaluate_lrfd, if_neg (by push_neg; exact ⟨hc, hp⟩)]
    simp only []
    rw [if_neg (not_le.2 (mul_pos hp hc))]

/-- Witness for C3 at capacity = 1, demand = -1, φ = 1, γ = 1
(the negative demand is clamped). -/
theorem claim_C3_witness :
    (0:ℚ) < 1 ∧
      evaluate_lrfd 1 (-1) 1 1 =
        (((1 * (if (-1:ℚ) < 0 then 0 else -1) / (1 * 1) : ℚ) : WithTop ℚ),
         decide ((1 * (if (-1:ℚ) < 0 then 0 else -1) / (1 * 1) : ℚ) ≤ 1)) :=
  ⟨by norm_num, (claim_C3_evaluate_lrfd_cases 1 (-1) 1 1).2 (by norm_num) (by norm_num)⟩

/-- C5 fails as stated: with a negative durability deduction (here -1 on
nominal thickness 1) the code clamps the deduction to zero first, so the
effective thickness is 1, not max(0, t - deduction) = 2. -/
theorem claim_C5_counterexample :
    ¬ (inpC5.t_effective = max 0 (inpC5.t - inpC5.factors.t_dur_deduction)) := by
  have h1 : inpC5.t_effective = 1 := by
    rw [DesignInput.t_effective]
    norm_num [inpC5, max_def]
  have h2 : max 0 (inpC5.t - inpC5.factors.t_dur_deduction) = 2 := by
    norm_num [inpC5, max_def]
  rw [h1, h2]
  norm_num

/-- C5 (amended): the effective thickness equals
max(0, t - max(0, deduction)) — the deduction is itself clamped at zero, so
a negative deduction acts as zero; the value is recomputed from the current
fields on every call. -/
theorem claim_C5_t_effective (inp : DesignInput) :
    inp.t_effective = max 0 (inp.t - max 0 inp.factors.t_dur_deduction) :=
  t_effective_eq_max inp

/-- C8 fails as stated: with durability deduction 0.2 m, thicknesses
0.08 m and 0.14 m both clamp to zero effective thickness, so the flexural
capacities are equal (both zero), not strictly ordered. -/
theorem claim_C8_counterexample :
    inpC8.t < (7/50 : ℚ) ∧
    ¬ (capacity_flexure_two_way inpC8.t_effective inpC8.materials.f_r <
        capacity_flexure_two_way ({ inpC8 with t := 7/50 } : DesignInput).t_effective
          ({ inpC8 with t := 7/50 } : DesignInput).materials.f_r) := by
  have h1 : inpC8.t_effective = 0 := by
    rw [DesignInput.t_effective]
    norm_num [inpC8, max_def]
  have h2 : ({ inpC8 with t := 7/50 } : DesignInput).t_effective = 0 := by
    rw [DesignInput.t_effective]
    norm_num [inpC8, max_def]
  constructor
  · norm_num [inpC8]
  · rw [h1, h2]
    exact lt_irrefl _

/-- C8 (amended): increasing the nominal thickness strictly increases the
flexural capacity provided the residual flexural strength is positive and
the larger thickness exceeds the (clamped) durability deduction. -/
theorem claim_C8_flexural_capacity_mono (inp : DesignInput) (t2 : ℚ)
    (ht : inp.t < t2) (hf : 0 < inp.materials.f_r)
    (hteff2 : 0 < t2 - max 0 inp.factors.t_dur_deduction) :
    capacity_flexure_two_way inp.t_effective inp.materials.f_r <
      capacity_flexure_two_way ({ inp with t := t2 } : DesignInput).t_effective
        inp.materials.f_r := by
  have h2 : ({ inp with t := t2 } : DesignInput).t_effective =
      t2 - max 0 inp.factors.t_dur_deduction := by
    rw [t_effective_eq_max]
    exact max_eq_right hteff2.le
  rw [h2, t_effective_eq_max]
  rcases le_or_lt (inp.t - max 0 inp.factors.t_dur_deduction) 0 with hle | hpos
  · rw [max_eq_left hle, capacity_flexure_two_way, if_pos (Or.inl (le_refl 0)),
        capacity_flexure_two_way, if_neg (by push_neg; exact ⟨hteff2, hf⟩)]
    have hz : 0 < (t2 - max 0 inp.factors.t_dur_deduction) ^ 2 / 6 :=
      div_pos (pow_pos hteff2 2) (by norm_num)
    have hM : (0:ℚ) < MPA_TO_KN_M2 := by norm_num [MPA_TO_KN_M2]
    exact mul_pos (mul_pos hf hM) hz
  · rw [max_eq_right hpos.le, capacity_flexure_two_way, capacity_flexure_two_way,
        if_neg (by push_neg; exact ⟨hpos, hf⟩), if_neg (by push_neg; exact ⟨hteff2, hf⟩)]
    simp only [MPA_TO_KN_M2]
    have hlt : inp.t - max 0 inp.factors.t_dur_deduction <
        t2 - max 0 inp.factors.t_dur_deduction := by linarith
    have hsq : (inp.t - max 0 inp.factors.t_dur_deduction) ^ 2 <
        (t2 - max 0 inp.factors.t_dur_deduction) ^ 2 :=
      pow_lt_pow_left₀ hlt hpos.le (by norm_num)
    have hstep := mul_lt_mul_of_pos_left hsq
      (mul_pos hf (by norm_num : (0:ℚ) < 1000))
    linarith [hstep]

/-- Witness for the amended C8 at t = 0.1 versus t2 = 0.2, zero deduction. -/
theorem claim_C8_witness :
    inpC8w.t < (1/5 : ℚ) ∧ 0 < inpC8w.materials.f_r ∧
      0 < (1/5 : ℚ) - max 0 inpC8w.factors.t_dur_deduction ∧
      capacity_flexure_two_way inpC8w.t_effective inpC8w.materials.f_r <
        capacity_flexure_two_way ({ inpC8w with t := 1/5 } : DesignInput).t_effective
          inpC8w.materials.f_r :=
  ⟨by norm_num [inpC8w], by norm_num [inpC8w],
   by norm_num [inpC8w, max_def],
   claim_C8_flexural_capacity_mono inpC8w (1/5) (by norm_num [inpC8w])
     (by norm_num [inpC8w]) (by norm_num [inpC8w, max_def])⟩

/-- A valid Factor-of-Safety input on the pyramid model (defaults: FOS
convention, 60-degree wedge, a_bond = 0.05, unit strengths). -/
def wInp : DesignInput := { s := 1, t := 1, c := 0, gamma_rock := 6 }

/-- C4: the load models raise exactly when s ≤ 0 or gamma_rock ≤ 0 (plus
h_block ≤ 0 for the flat-block variant); check_design propagates the
condition unchanged and returns successfully whenever the selected model's
preconditions hold. -/
theorem claim_C4_load_model_errors (tanDeg : ℚ → ℚ)
    (s gamma_rock theta_deg h_block surcharge : ℚ) (inc : Bool) (ts gs : ℚ)
    (inp : DesignInput) :
    ((∃ e, block_weight_pyramid tanDeg s gamma_rock theta_deg surcharge inc ts gs =
        .error e) ↔ s ≤ 0 ∨ gamma_rock ≤ 0) ∧
    ((∃ e, block_weight_shale tanDeg s gamma_rock theta_deg surcharge inc ts gs =
        .error e) ↔ s ≤ 0 ∨ gamma_rock ≤ 0) ∧
    ((∃ e, block_weight_flat s gamma_rock h_block surcharge inc ts gs = .error e) ↔
      s ≤ 0 ∨ gamma_rock ≤ 0 ∨ h_block ≤ 0) ∧
    (∀ e, check_design tanDeg inp = .error e ↔
      panel_load_from_input tanDeg inp = .error e) ∧
    (0 < inp.s → 0 < inp.gamma_rock →
      (inp.load_model = LoadModel.FLAT_BLOCK → 0 < inp.h_block) →
      ∃ r, check_design tanDeg inp = .ok r) := by
  refine ⟨block_weight_pyramid_error_iff tanDeg s gamma_rock theta_deg surcharge inc ts gs,
    ?_, block_weight_flat_error_iff s gamma_rock h_block surcharge inc ts gs, ?_, ?_⟩
  · rw [show block_weight_shale tanDeg s gamma_rock theta_deg surcharge inc ts gs =
        block_weight_pyramid tanDeg s gamma_rock theta_deg surcharge inc ts gs from rfl]
    exact block_weight_pyramid_error_iff tanDeg s gamma_rock theta_deg surcharge inc ts gs
  · intro e
    rw [check_design]
    cases hpl : panel_load_from_input tanDeg inp with
    | error e' => simp
    | ok p =>
      obtain ⟨W, w⟩ := p
      simp
  · intro hs hg hh
    cases hLM : inp.load_model with
    | PYRAMID_60 =>
      exact ⟨_, by rw [check_design, panel_load_eq_pyramid tanDeg inp hLM,
        block_weight_pyramid_ok tanDeg _ _ _ _ hs hg]⟩
    | FLAT_BLOCK =>
      exact ⟨_, by rw [check_design, panel_load_eq_flat tanDeg inp hLM,
        block_weight_flat_ok _ _ _ _ hs hg (hh hLM)]⟩
    | SHALE_WEDGE =>
      exact ⟨_, by rw [check_design, panel_load_eq_shale tanDeg inp hLM,
        block_weight_pyramid_ok tanDeg _ _ _ _ hs hg]⟩

/-- Witness for C4: the success conjunct at a concrete valid input. -/
theorem claim_C4_witness :
    0 < wInp.s ∧ 0 < wInp.gamma_rock ∧ ∃ r, check_design tanOne wInp = .ok r :=
  ⟨by norm_num [wInp], by norm_num [wInp],
   (claim_C4_load_model_errors tanOne 1 1 1 1 1 false 1 24 wInp).2.2.2.2
     (by norm_num [wInp]) (by norm_num [wInp])
     (fun hm => absurd hm (by decide))⟩

lemma evaluate_mode_fos_passes_iff (d c phi gamma : ℚ) :
    (evaluate_mode d c DesignMode.FOS phi gamma).passes = some true ↔
      1 ≤ (evaluate_fos c d).1 := by
  rw [show (evaluate_mode d c DesignMode.FOS phi gamma).passes =
      some (evaluate_fos c d).2 from rfl, Option.some_inj]
  exact evaluate_fos_pass_iff c d

lemma evaluate_mode_lrfd_passes_iff (d c phi gamma : ℚ) :
    (evaluate_mode d c DesignMode.LRFD phi gamma).passes = some true ↔
      (evaluate_lrfd c d phi gamma).1 ≤ 1 := by
  rw [show (evaluate_mode d c DesignMode.LRFD phi gamma).passes =
      some (evaluate_lrfd c d phi gamma).2 from rfl, Option.some_inj]
  exact evaluate_lrfd_pass_iff c d phi gamma

/-- The result record computed by check_design at the witness input. -/
def wRes : DesignResult := (check_design tanOne wInp).toOption.getD {}

/-- The witness input under the factored (LRFD) convention. -/
def wInpL : DesignInput :=
  { s := 1, t := 1, c := 0, gamma_rock := 6,
    factors := { mode := DesignMode.LRFD } }

/-- The result record computed by check_design at the LRFD witness input. -/
def wResL : DesignResult := (check_design tanOne wInpL).toOption.getD {}

/-- C1: whenever check_design returns, the governing mode under the FoS
convention is the minimum-FoS mode (first mode in dictionary order wins
ties) with overall pass = (governing value ≥ 1), and under the factored
convention it is the maximum-utilisation mode (same first-wins policy) with
overall pass = (governing value ≤ 1). -/
theorem claim_C1_governing_selection (tanDeg : ℚ → ℚ) (inp : DesignInput)
    (res : DesignResult) (h : check_design tanDeg inp = .ok res) :
    (inp.factors.mode = DesignMode.FOS →
      ∃ v1 v2 v3 v4 : WithTop ℚ,
        res.modes.map (fun p => (p.1, p.2.fos)) =
          [("Adhesion", some v1), ("Flexure", some v2),
           ("Punching", some v3), ("DirectShear", some v4)] ∧
        res.governing_value = min v1 (min v2 (min v3 v4)) ∧
        res.governing_mode =
          (if v1 ≤ v2 ∧ v1 ≤ v3 ∧ v1 ≤ v4 then "Adhesion"
           else if v2 ≤ v3 ∧ v2 ≤ v4 then "Flexure"
           else if v3 ≤ v4 then "Punching" else "DirectShear") ∧
        (res.ok = true ↔ 1 ≤ res.governing_value)) ∧
    (inp.factors.mode = DesignMode.LRFD →
      ∃ u1 u2 u3 u4 : WithTop ℚ,
        res.modes.map (fun p => (p.1, p.2.utilization)) =
          [("Adhesion", some u1), ("Flexure", some u2),
           ("Punching", some u3), ("DirectShear", some u4)] ∧
        res.governing_value = max u1 (max u2 (max u3 u4)) ∧
        res.governing_mode =
          (if u2 ≤ u1 ∧ u3 ≤ u1 ∧ u4 ≤ u1 then "Adhesion"
           else if u3 ≤ u2 ∧ u4 ≤ u2 then "Flexure"
           else if u4 ≤ u3 then "Punching" else "DirectShear") ∧
        (res.ok = true ↔ res.governing_value ≤ 1)) := by
  obtain ⟨W, w, hpl, hres⟩ := check_design_ok_elim tanDeg inp res h
  subst hres
  constructor
  · intro hm
    refine ⟨(evaluate_fos (capacity_adhesion inp.s inp.a_bond inp.materials.tau_b) W).1,
      (evaluate_fos (capacity_flexure_two_way inp.t_effective inp.materials.f_r)
        (flexure_demands_uniform_load w inp.s (3/5))).1,
      (evaluate_fos (capacity_punching inp.t_effective inp.c inp.materials.v_rd)
        (punching_demand w inp.s)).1,
      (evaluate_fos (capacity_direct_shear inp.s inp.t_effective inp.materials.tau_v) W).1,
      ?_, ?_, ?_, ?_⟩
    · rw [design_checks_modes, hm]
      rfl
    · rw [(design_checks_gov_fos inp W w hm).2.1, design_checks_modes, hm,
        min_fos_mode_quad _ _ _ _ _ _ _ _ _ _ _ _ rfl rfl rfl rfl]
    · rw [(design_checks_gov_fos inp W w hm).1, design_checks_modes, hm,
        min_fos_mode_quad _ _ _ _ _ _ _ _ _ _ _ _ rfl rfl rfl rfl]
    · rw [(design_checks_gov_fos inp W w hm).2.2,
        (design_checks_gov_fos inp W w hm).2.1]
      simp [decide_eq_true_iff, ge_iff_le]
  · intro hm
    refine ⟨(evaluate_lrfd (capacity_adhesion inp.s inp.a_bond inp.materials.tau_b) W
        inp.factors.phi_shear inp.factors.gamma_load).1,
      (evaluate_lrfd (capacity_flexure_two_way inp.t_effective inp.materials.f_r)
        (flexure_demands_uniform_load w inp.s (3/5))
        inp.factors.phi_flexure inp.factors.gamma_load).1,
      (evaluate_lrfd (capacity_punching inp.t_effective inp.c inp.materials.v_rd)
        (punching_demand w inp.s) inp.factors.phi_punching inp.factors.gamma_load).1,
      (evaluate_lrfd (capacity_direct_shear inp.s inp.t_effective inp.materials.tau_v) W
        inp.factors.phi_shear inp.factors.gamma_load).1,
      ?_, ?_, ?_, ?_⟩
    · rw [design_checks_modes, hm]
      rfl
    · rw [(design_checks_gov_lrfd inp W w hm).2.1, design_checks_modes, hm,
        max_util_mode_quad _ _ _ _ _ _ _ _ _ _ _ _ rfl rfl rfl rfl]
    · rw [(design_checks_gov_lrfd inp W w hm).1, design_checks_modes, hm,
        max_util_mode_quad _ _ _ _ _ _ _ _ _ _ _ _ rfl rfl rfl rfl]
    · rw [(design_checks_gov_lrfd inp W w hm).2.2,
        (design_checks_gov_lrfd inp W w hm).2.1]
      simp [decide_eq_true_iff]

/-- Witness for C1 at the concrete FOS input. -/
theorem claim_C1_witness :
    check_design tanOne wInp = .ok wRes ∧
      ((wInp.factors.mode = DesignMode.FOS →
        ∃ v1 v2 v3 v4 : WithTop ℚ,
          wRes.modes.map (fun p => (p.1, p.2.fos)) =
            [("Adhesion", some v1), ("Flexure", some v2),
             ("Punching", some v3), ("DirectShear", some v4)] ∧
          wRes.governing_value = min v1 (min v2 (min v3 v4)) ∧
          wRes.governing_mode =
            (if v1 ≤ v2 ∧ v1 ≤ v3 ∧ v1 ≤ v4 then "Adhesion"
             else if v2 ≤ v3 ∧ v2 ≤ v4 then "Flexure"
             else if v3 ≤ v4 then "Punching" else "DirectShear") ∧
          (wRes.ok = true ↔ 1 ≤ wRes.governing_value)) ∧
      (wInp.factors.mode = DesignMode.LRFD →
        ∃ u1 u2 u3 u4 : WithTop ℚ,
          wRes.modes.map (fun p => (p.1, p.2.utilization)) =
            [("Adhesion", some u1), ("Flexure", some u2),
             ("Punching", some u3), ("DirectShear", some u4)] ∧
          wRes.governing_value = max u1 (max u2 (max u3 u4)) ∧
          wRes.governing_mode =
            (if u2 ≤ u1 ∧ u3 ≤ u1 ∧ u4 ≤ u1 then "Adhesion"
             else if u3 ≤ u2 ∧ u4 ≤ u2 then "Flexure"
             else if u4 ≤ u3 then "Punching" else "DirectShear") ∧
          (wRes.ok = true ↔ wRes.governing_value ≤ 1))) :=
  ⟨rfl, claim_C1_governing_selection tanOne wInp wRes rfl⟩

/-- C10: whenever check_design returns, the overall ok flag is true exactly
when all four per-mode pass flags are true, under either convention. -/
theorem claim_C10_ok_iff_all_pass (tanDeg : ℚ → ℚ) (inp : DesignInput)
    (res : DesignResult) (h : check_design tanDeg inp = .ok res) :
    res.ok = true ↔ ∀ p ∈ res.modes, p.2.passes = some true := by
  obtain ⟨W, w, hpl, hres⟩ := check_design_ok_elim tanDeg inp res h
  subst hres
  cases hm : inp.factors.mode with
  | FOS =>
    rw [(design_checks_gov_fos inp W w hm).2.2, design_checks_modes, hm,
      min_fos_mode_quad _ _ _ _ _ _ _ _ _ _ _ _ rfl rfl rfl rfl]
    simp only [List.forall_mem_cons, and_true]
    rw [decide_eq_true_iff]
    simp only [ge_iff_le, le_min_iff]
    refine and_congr (evaluate_mode_fos_passes_iff _ _ _ _).symm
      (and_congr (evaluate_mode_fos_passes_iff _ _ _ _).symm
        (and_congr (evaluate_mode_fos_passes_iff _ _ _ _).symm
          (Iff.trans (evaluate_mode_fos_passes_iff _ _ _ _).symm
            (and_iff_left (by intro x hx; exact absurd hx (List.not_mem_nil x))).symm)))
  | LRFD =>
    rw [(design_checks_gov_lrfd inp W w hm).2.2, design_checks_modes, hm,
      max_util_mode_quad _ _ _ _ _ _ _ _ _ _ _ _ rfl rfl rfl rfl]
    simp only [List.forall_mem_cons, and_true]
    rw [decide_eq_true_iff]
    simp only [max_le_iff]
    refine and_congr (evaluate_mode_lrfd_passes_iff _ _ _ _).symm
      (and_congr (evaluate_mode_lrfd_passes_iff _ _ _ _).symm
        (and_congr (evaluate_mode_lrfd_passes_iff _ _ _ _).symm
          (Iff.trans (evaluate_mode_lrfd_passes_iff _ _ _ _).symm
            (and_iff_left (by intro x hx; exact absurd hx (List.not_mem_nil x))).symm)))

/-- Witness for C10 at the concrete LRFD input. -/
theorem claim_C10_witness :
    check_design tanOne wInpL = .ok wResL ∧
      (wResL.ok = true ↔ ∀ p ∈ wResL.modes, p.2.passes = some true) :=
  ⟨rfl, claim_C10_ok_iff_all_pass tanOne wInpL wResL rfl⟩

/-- C6 fails as stated for the flexure demand formula: a negative two-way
reduction factor argument yields a negative demand (-1/8 at w = 1, s = 1,
factor = -1), not a non-negative one. -/
theorem claim_C6_counterexample : flexure_demands_uniform_load 1 1 (-1) < 0 := by
  rw [flexure_demands_uniform_load, if_neg (by norm_num)]
  norm_num

/-- C6 (amended): every capacity and demand formula is total and returns a
non-negative value — for the flexure demand formula, provided its two-way
reduction factor argument is non-negative (the orchestrator always passes
0.6); each formula returns exactly zero on its non-physical inputs
(non-positive spacing, non-positive effective thickness, non-positive
strength where required, negative uniform load); and every ModeResult of a
successful check_design run on a valid input carries demand ≥ 0 and
capacity ≥ 0. -/
theorem claim_C6_library_nonneg (tanDeg : ℚ → ℚ)
    (htan : ∀ θ, 0 < θ → θ < 90 → 0 < tanDeg θ)
    (inp : DesignInput) (res : DesignResult)
    (hs : 0 < inp.s) (ht : 0 < inp.t) (hc : 0 ≤ inp.c) (hg : 0 < inp.gamma_rock)
    (hθ1 : 0 < inp.theta_deg) (hθ2 : inp.theta_deg < 90)
    (h : check_design tanDeg inp = .ok res) :
    (∀ s a τ, 0 ≤ capacity_adhesion s a τ ∧
      (s ≤ 0 ∨ τ ≤ 0 → capacity_adhesion s a τ = 0)) ∧
    (∀ w s f, 0 ≤ f → 0 ≤ flexure_demands_uniform_load w s f) ∧
    (∀ w s f, s ≤ 0 ∨ w < 0 → flexure_demands_uniform_load w s f = 0) ∧
    (∀ te f, 0 ≤ capacity_flexure_two_way te f ∧
      (te ≤ 0 ∨ f ≤ 0 → capacity_flexure_two_way te f = 0)) ∧
    (∀ w s, 0 ≤ punching_demand w s ∧
      (s ≤ 0 ∨ w < 0 → punching_demand w s = 0)) ∧
    (∀ te cp v, 0 ≤ capacity_punching te cp v ∧
      (te ≤ 0 ∨ v ≤ 0 → capacity_punching te cp v = 0)) ∧
    (∀ s te τ, 0 ≤ capacity_direct_shear s te τ ∧
      (s ≤ 0 ∨ te ≤ 0 ∨ τ ≤ 0 → capacity_direct_shear s te τ = 0)) ∧
    (∀ p ∈ res.modes, 0 ≤ p.2.demand ∧ 0 ≤ p.2.capacity) := by
  refine ⟨fun s a τ => ⟨capacity_adhesion_nonneg s a τ, capacity_adhesion_zero s a τ⟩,
    fun w s f hf => flexure_demands_nonneg w s f hf,
    fun w s f hws => flexure_demands_zero w s f hws,
    fun te f => ⟨capacity_flexure_two_way_nonneg te f, capacity_flexure_two_way_zero te f⟩,
    fun w s => ⟨punching_demand_nonneg w s, punching_demand_zero w s⟩,
    fun te cp v => ⟨capacity_punching_nonneg te cp v, capacity_punching_zero te cp v⟩,
    fun s te τ => ⟨capacity_direct_shear_nonneg s te τ, capacity_direct_shear_zero s te τ⟩,
    ?_⟩
  obtain ⟨W, w, hpl, hres⟩ := check_design_ok_elim tanDeg inp res h
  subst hres
  have hW : 0 ≤ W := by
    cases hLM : inp.load_model with
    | PYRAMID_60 =>
      rw [panel_load_eq_pyramid tanDeg inp hLM,
        block_weight_pyramid_ok tanDeg _ _ _ _ hs hg, Except.ok.injEq,
        Prod.mk.injEq] at hpl
      rw [← hpl.1]
      have htθ := (htan _ hθ1 hθ2).le
      exact mul_nonneg (mul_nonneg (by positivity)
        (mul_nonneg (mul_nonneg (by norm_num) hs.le) htθ)) hg.le
    | SHALE_WEDGE =>
      rw [panel_load_eq_shale tanDeg inp hLM,
        block_weight_pyramid_ok tanDeg _ _ _ _ hs hg, Except.ok.injEq,
        Prod.mk.injEq] at hpl
      rw [← hpl.1]
      have htθ := (htan _ hθ1 hθ2).le
      exact mul_nonneg (mul_nonneg (by positivity)
        (mul_nonneg (mul_nonneg (by norm_num) hs.le) htθ)) hg.le
    | FLAT_BLOCK =>
      rw [panel_load_eq_flat tanDeg inp hLM] at hpl
      obtain ⟨-, -, hh⟩ := block_weight_flat_ok_inv _ _ _ _ _ _ _ _ hpl
      rw [block_weight_flat_ok _ _ _ _ hs hg hh, Except.ok.injEq,
        Prod.mk.injEq] at hpl
      rw [← hpl.1]
      exact mul_nonneg (mul_nonneg (sq_nonneg _) hh.le) hg.le
  intro p hp
  rw [design_checks_modes] at hp
  simp only [List.mem_cons, List.not_mem_nil, or_false] at hp
  rcases hp with rfl | rfl | rfl | rfl
  · exact ⟨by rw [evaluate_mode_demand]; exact hW,
      by rw [evaluate_mode_capacity]; exact capacity_adhesion_nonneg _ _ _⟩
  · exact ⟨by rw [evaluate_mode_demand]; exact flexure_demands_nonneg _ _ _ (by norm_num),
      by rw [evaluate_mode_capacity]; exact capacity_flexure_two_way_nonneg _ _⟩
  · exact ⟨by rw [evaluate_mode_demand]; exact punching_demand_nonneg _ _,
      by rw [evaluate_mode_capacity]; exact capacity_punching_nonneg _ _ _⟩
  · exact ⟨by rw [evaluate_mode_demand]; exact hW,
      by rw [evaluate_mode_capacity]; exact capacity_direct_shear_nonneg _ _ _⟩

/-- Witness for the amended C6: the ModeResult conjunct at the concrete
FOS input. -/
theorem claim_C6_witness :
    0 < wInp.s ∧ 0 < wInp.gamma_rock ∧ check_design tanOne wInp = .ok wRes ∧
      ∀ p ∈ wRes.modes, 0 ≤ p.2.demand ∧ 0 ≤ p.2.capacity :=
  ⟨by norm_num [wInp], by norm_num [wInp], rfl,
   (claim_C6_library_nonneg tanOne (fun θ h1 h2 => by norm_num [tanOne]) wInp wRes
     (by norm_num [wInp]) (by norm_num [wInp]) (by norm_num [wInp])
     (by norm_num [wInp]) (by norm_num [wInp]) (by norm_num [wInp])
     rfl).2.2.2.2.2.2.2⟩

/-- Under the FOS convention the governing value of the mode checks is
antitone in the spacing argument, given the weight facts W1, W2 > 0,
W1 no larger than W2 and the cross inequality s2 W1 at most s1 W2. -/
lemma gov_fos_mono_core (inp : DesignInput) (s2 W1 W2 : ℚ)
    (hm : inp.factors.mode = DesignMode.FOS)
    (hs1 : 0 < inp.s) (hs2 : 0 < s2)
    (hW1 : 0 < W1) (hW2 : 0 < W2) (hWm : W1 ≤ W2)
    (hWs : s2 * W1 ≤ inp.s * W2) :
    (design_checks ({ inp with s := s2 } : DesignInput) W2
        (W2 / (s2 * s2))).governing_value ≤
      (design_checks inp W1 (W1 / (inp.s * inp.s))).governing_value := by
  have hm2 : ({ inp with s := s2 } : DesignInput).factors.mode = DesignMode.FOS := hm
  rw [(design_checks_gov_fos inp W1 (W1 / (inp.s * inp.s)) hm).2.1,
    (design_checks_gov_fos ({ inp with s := s2 } : DesignInput) W2
      (W2 / (s2 * s2)) hm2).2.1]
  simp only [design_checks_modes]
  rw [hm]
  rw [show ({ inp with s := s2 } : DesignInput).t_effective = inp.t_effective from rfl]
  rw [min_fos_mode_quad _ _ _ _ _ _ _ _ _ _ _ _ rfl rfl rfl rfl,
    min_fos_mode_quad _ _ _ _ _ _ _ _ _ _ _ _ rfl rfl rfl rfl]
  dsimp only
  rw [flexure_demand_of_w W1 inp.s hs1 hW1.le, flexure_demand_of_w W2 s2 hs2 hW2.le,
    punching_demand_of_w W1 inp.s hs1 hW1.le, punching_demand_of_w W2 s2 hs2 hW2.le]
  have hA : (evaluate_fos (capacity_adhesion s2 inp.a_bond inp.materials.tau_b) W2).1 ≤
      (evaluate_fos (capacity_adhesion inp.s inp.a_bond inp.materials.tau_b) W1).1 :=
    evaluate_fos_val_mono _ _ _ _ hW1 hW2 (capacity_adhesion_nonneg _ _ _)
      (capacity_adhesion_cross inp.s s2 _ _ W1 W2 hs1 hs2 hWs)
  have hdf1 : (0:ℚ) < 3 * W1 / 40 := by positivity
  have hdf2 : (0:ℚ) < 3 * W2 / 40 := by positivity
  have hF : (evaluate_fos (capacity_flexure_two_way inp.t_effective inp.materials.f_r)
        (3 * W2 / 40)).1 ≤
      (evaluate_fos (capacity_flexure_two_way inp.t_effective inp.materials.f_r)
        (3 * W1 / 40)).1 :=
    evaluate_fos_val_mono _ _ _ _ hdf1 hdf2 (capacity_flexure_two_way_nonneg _ _)
      (mul_le_mul_of_nonneg_left (by linarith) (capacity_flexure_two_way_nonneg _ _))
  have hdp1 : (0:ℚ) < W1 / 4 := by positivity
  have hdp2 : (0:ℚ) < W2 / 4 := by positivity
  have hP : (evaluate_fos (capacity_punching inp.t_effective inp.c inp.materials.v_rd)
        (W2 / 4)).1 ≤
      (evaluate_fos (capacity_punching inp.t_effective inp.c inp.materials.v_rd)
        (W1 / 4)).1 :=
    evaluate_fos_val_mono _ _ _ _ hdp1 hdp2 (capacity_punching_nonneg _ _ _)
      (mul_le_mul_of_nonneg_left (by linarith) (capacity_punching_nonneg _ _ _))
  have hS : (evaluate_fos (capacity_direct_shear s2 inp.t_effective inp.materials.tau_v)
        W2).1 ≤
      (evaluate_fos (capacity_direct_shear inp.s inp.t_effective inp.materials.tau_v)
        W1).1 :=
    evaluate_fos_val_mono _ _ _ _ hW1 hW2 (capacity_direct_shear_nonneg _ _ _)
      (capacity_direct_shear_cross inp.s s2 _ _ W1 W2 hs1 hs2 hWs)
  exact min_le_min hA (min_le_min hF (min_le_min hP hS))

/-- The second result record for the spacing-monotonicity witness. -/
def wRes7 : DesignResult :=
  (check_design tanOne ({ wInp with s := 2 } : DesignInput)).toOption.getD {}

/-- C7: under the Factor-of-Safety convention, increasing the bolt spacing
(all else fixed, positivity constraints satisfied, wedge angle in
(0°, 90°)) never increases the governing factor of safety. -/
theorem claim_C7_gov_fos_antitone (tanDeg : ℚ → ℚ)
    (htan : ∀ θ, 0 < θ → θ < 90 → 0 < tanDeg θ)
    (inp : DesignInput) (s2 : ℚ)
    (hmode : inp.factors.mode = DesignMode.FOS)
    (hs : 0 < inp.s) (hss : inp.s < s2)
    (ht : 0 < inp.t) (hc : 0 ≤ inp.c) (hg : 0 < inp.gamma_rock)
    (hθ1 : 0 < inp.theta_deg) (hθ2 : inp.theta_deg < 90)
    (hh : inp.load_model = LoadModel.FLAT_BLOCK → 0 < inp.h_block)
    (res1 res2 : DesignResult)
    (h1 : check_design tanDeg inp = .ok res1)
    (h2 : check_design tanDeg ({ inp with s := s2 } : DesignInput) = .ok res2) :
    res2.governing_value ≤ res1.governing_value := by
  have hs2 : 0 < s2 := hs.trans hss
  obtain ⟨Wa, wa, hpl1, hres1⟩ := check_design_ok_elim tanDeg inp res1 h1
  obtain ⟨Wb, wb, hpl2, hres2⟩ := check_design_ok_elim tanDeg _ res2 h2
  subst hres1
  subst hres2
  have hsum : (0:ℚ) ≤ inp.s + s2 := by linarith
  have hkey3 : s2 * inp.s ^ 3 ≤ inp.s * s2 ^ 3 := by
    have hf := mul_nonneg (mul_nonneg (mul_pos hs hs2).le (sub_nonneg.2 hss.le)) hsum
    nlinarith [hf]
  have hkey2 : s2 * inp.s ^ 2 ≤ inp.s * s2 ^ 2 := by
    have hf := mul_nonneg (mul_pos hs hs2).le (sub_nonneg.2 hss.le)
    nlinarith [hf]
  cases hLM : inp.load_model with
  | PYRAMID_60 =>
    rw [panel_load_eq_pyramid tanDeg inp hLM,
      block_weight_pyramid_ok tanDeg _ _ _ _ hs hg, Except.ok.injEq,
      Prod.mk.injEq] at hpl1
    obtain ⟨hWa, hwa⟩ := hpl1
    subst hWa
    subst hwa
    have hLM2 : ({ inp with s := s2 } : DesignInput).load_model =
        LoadModel.PYRAMID_60 := hLM
    rw [panel_load_eq_pyramid tanDeg _ hLM2,
      block_weight_pyramid_ok tanDeg _ _ _ _ hs2 hg, Except.ok.injEq,
      Prod.mk.injEq] at hpl2
    obtain ⟨hWb, hwb⟩ := hpl2
    subst hWb
    subst hwb
    have hK : 0 < tanDeg inp.theta_deg := htan _ hθ1 hθ2
    have hKg : (0:ℚ) ≤ tanDeg inp.theta_deg * inp.gamma_rock :=
      (mul_pos hK hg).le
    have hW1 : 0 < 1/3 * inp.s ^ 2 * (1/2 * inp.s * tanDeg inp.theta_deg) *
        inp.gamma_rock :=
      mul_pos (mul_pos (mul_pos (by norm_num) (pow_pos hs 2))
        (mul_pos (mul_pos (by norm_num) hs) hK)) hg
    have hW2 : 0 < 1/3 * s2 ^ 2 * (1/2 * s2 * tanDeg inp.theta_deg) *
        inp.gamma_rock :=
      mul_pos (mul_pos (mul_pos (by norm_num) (pow_pos hs2 2))
        (mul_pos (mul_pos (by norm_num) hs2) hK)) hg
    have hWm : 1/3 * inp.s ^ 2 * (1/2 * inp.s * tanDeg inp.theta_deg) *
        inp.gamma_rock ≤
        1/3 * s2 ^ 2 * (1/2 * s2 * tanDeg inp.theta_deg) * inp.gamma_rock := by
      have hcube : inp.s ^ 3 ≤ s2 ^ 3 := pow_le_pow_left₀ hs.le hss.le 3
      nlinarith [mul_le_mul_of_nonneg_left hcube hKg]
    have hWs : s2 * (1/3 * inp.s ^ 2 * (1/2 * inp.s * tanDeg inp.theta_deg) *
        inp.gamma_rock) ≤
        inp.s * (1/3 * s2 ^ 2 * (1/2 * s2 * tanDeg inp.theta_deg) *
          inp.gamma_rock) := by
      nlinarith [mul_le_mul_of_nonneg_left hkey3 hKg]
    exact gov_fos_mono_core inp s2 _ _ hmode hs hs2 hW1 hW2 hWm hWs
  | SHALE_WEDGE =>
    rw [panel_load_eq_shale tanDeg inp hLM,
      block_weight_pyramid_ok tanDeg _ _ _ _ hs hg, Except.ok.injEq,
      Prod.mk.injEq] at hpl1
    obtain ⟨hWa, hwa⟩ := hpl1
    subst hWa
    subst hwa
    have hLM2 : ({ inp with s := s2 } : DesignInput).load_model =
        LoadModel.SHALE_WEDGE := hLM
    rw [panel_load_eq_shale tanDeg _ hLM2,
      block_weight_pyramid_ok tanDeg _ _ _ _ hs2 hg, Except.ok.injEq,
      Prod.mk.injEq] at hpl2
    obtain ⟨hWb, hwb⟩ := hpl2
    subst hWb
    subst hwb
    have hK : 0 < tanDeg inp.theta_deg := htan _ hθ1 hθ2
    have hKg : (0:ℚ) ≤ tanDeg inp.theta_deg * inp.gamma_rock :=
      (mul_pos hK hg).le
    have hW1 : 0 < 1/3 * inp.s ^ 2 * (1/2 * inp.s * tanDeg inp.theta_deg) *
        inp.gamma_rock :=
      mul_pos (mul_pos (mul_pos (by norm_num) (pow_pos hs 2))
        (mul_pos (mul_pos (by norm_num) hs) hK)) hg
    have hW2 : 0 < 1/3 * s2 ^ 2 * (1/2 * s2 * tanDeg inp.theta_deg) *
        inp.gamma_rock :=
      mul_pos (mul_pos (mul_pos (by norm_num) (pow_pos hs2 2))
        (mul_pos (mul_pos (by norm_num) hs2) hK)) hg
    have hWm : 1/3 * inp.s ^ 2 * (1/2 * inp.s * tanDeg inp.theta_deg) *
        inp.gamma_rock ≤
        1/3 * s2 ^ 2 * (1/2 * s2 * tanDeg inp.theta_deg) * inp.gamma_rock := by
      have hcube : inp.s ^ 3 ≤ s2 ^ 3 := pow_le_pow_left₀ hs.le hss.le 3
      nlinarith [mul_le_mul_of_nonneg_left hcube hKg]
    have hWs : s2 * (1/3 * inp.s ^ 2 * (1/2 * inp.s * tanDeg inp.theta_deg) *
        inp.gamma_rock) ≤
        inp.s * (1/3 * s2 ^ 2 * (1/2 * s2 * tanDeg inp.theta_deg) *
          inp.gamma_rock) := by
      nlinarith [mul_le_mul_of_nonneg_left hkey3 hKg]
    exact gov_fos_mono_core inp s2 _ _ hmode hs hs2 hW1 hW2 hWm hWs
  | FLAT_BLOCK =>
    have hhb : 0 < inp.h_block := hh hLM
    rw [panel_load_eq_flat tanDeg inp hLM,
      block_weight_flat_ok _ _ _ _ hs hg hhb, Except.ok.injEq,
      Prod.mk.injEq] at hpl1
    obtain ⟨hWa, hwa⟩ := hpl1
    subst hWa
    subst hwa
    have hLM2 : ({ inp with s := s2 } : DesignInput).load_model =
        LoadModel.FLAT_BLOCK := hLM
    rw [panel_load_eq_flat tanDeg _ hLM2,
      block_weight_flat_ok _ _ _ _ hs2 hg hhb, Except.ok.injEq,
      Prod.mk.injEq] at hpl2
    obtain ⟨hWb, hwb⟩ := hpl2
    subst hWb
    subst hwb
    have hhg : (0:ℚ) ≤ inp.h_block * inp.gamma_rock := (mul_pos hhb hg).le
    have hW1 : 0 < inp.s ^ 2 * inp.h_block * inp.gamma_rock :=
      mul_pos (mul_pos (pow_pos hs 2) hhb) hg
    have hW2 : 0 < s2 ^ 2 * inp.h_block * inp.gamma_rock :=
      mul_pos (mul_pos (pow_pos hs2 2) hhb) hg
    have hWm : inp.s ^ 2 * inp.h_block * inp.gamma_rock ≤
        s2 ^ 2 * inp.h_block * inp.gamma_rock := by
      have hsq : inp.s ^ 2 ≤ s2 ^ 2 := pow_le_pow_left₀ hs.le hss.le 2
      nlinarith [mul_le_mul_of_nonneg_left hsq hhg]
    have hWs : s2 * (inp.s ^ 2 * inp.h_block * inp.gamma_rock) ≤
        inp.s * (s2 ^ 2 * inp.h_block * inp.gamma_rock) := by
      nlinarith [mul_le_mul_of_nonneg_left hkey2 hhg]
    exact gov_fos_mono_core inp s2 _ _ hmode hs hs2 hW1 hW2 hWm hWs

/-- Witness for C7 at spacing 1 versus 2 on the pyramid model. -/
theorem claim_C7_witness :
    wInp.factors.mode = DesignMode.FOS ∧ 0 < wInp.s ∧ wInp.s < 2 ∧
      check_design tanOne wInp = .ok wRes ∧
      check_design tanOne ({ wInp with s := 2 } : DesignInput) = .ok wRes7 ∧
      wRes7.governing_value ≤ wRes.governing_value :=
  ⟨rfl, by norm_num [wInp], by norm_num [wInp], rfl, rfl,
   claim_C7_gov_fos_antitone tanOne (fun θ a b => by norm_num [tanOne]) wInp 2 rfl
     (by norm_num [wInp]) (by norm_num [wInp]) (by norm_num [wInp])
     (by norm_num [wInp]) (by norm_num [wInp]) (by norm_num [wInp])
     (by norm_num [wInp]) (fun hm => absurd hm (by decide)) wRes wRes7 rfl rfl⟩

/-- C9: the shale-wedge load model is extensionally equal to the
pyramidal-wedge load model at every parameter tuple. -/
theorem claim_C9_shale_eq_pyramid (tanDeg : ℚ → ℚ)
    (s gamma_rock theta_deg surcharge_uniform : ℚ)
    (include_shotcrete_self_weight : Bool) (t_shotcrete gamma_shotcrete : ℚ) :
    block_weight_shale tanDeg s gamma_rock theta_deg surcharge_uniform
        include_shotcrete_self_weight t_shotcrete gamma_shotcrete =
      block_weight_pyramid tanDeg s gamma_rock theta_deg surcharge_uniform
        include_shotcrete_self_weight t_shotcrete gamma_shotcrete := rfl

end Shotcrete
